import Mathlib

/-!
Shallow embedding of the `watcher` subsystem of the repository
(`src-tauri/src/watcher/{config,events,filter,service}.rs`): a debounced,
rule-filtered, priority-classified filesystem change notification pipeline.
Paths are modelled as `String`, Rust `u64`/`usize` counters as `Nat`, and
`f64` statistics as exact rationals.  Stateful code (the watcher service's
`start`, the debounce callback, the dispatch task) is modelled by explicit
state passing; the OS environment (path existence, watch registration,
event emission) is supplied as boolean oracles.
-/

namespace Watcher

/-! ## String primitives

Rust `str::contains`, `str::starts_with`, `str::ends_with` and
`Path::file_name` modelled over `List Char`. -/

/-- Does the second list occur as a prefix of the first? -/
def beginsWith : List Char → List Char → Bool
  | _, [] => true
  | [], _ :: _ => false
  | a :: as, b :: bs => (a == b) && beginsWith as bs

/-- Does the second list occur as a contiguous sublist of the first?
Models Rust `str::contains` on UTF-8 strings. -/
def hasSubstr : List Char → List Char → Bool
  | [], needle => needle.isEmpty
  | hay@(_ :: t), needle => beginsWith hay needle || hasSubstr t needle

/-- Rust `str::contains` (substring containment). -/
def strContainsSub (hay needle : String) : Bool :=
  hasSubstr hay.data needle.data

/-- Rust `str::ends_with` (suffix match). -/
def strEndsWith (hay needle : String) : Bool :=
  beginsWith hay.data.reverse needle.data.reverse

/-- Rust `str::starts_with` (prefix match). -/
def strStartsWith (hay needle : String) : Bool :=
  beginsWith hay.data needle.data

/-- Split a character list on the path separator. -/
def splitSlash : List Char → List (List Char)
  | [] => [[]]
  | c :: rest =>
    let r := splitSlash rest
    if c == '/' then [] :: r
    else
      match r with
      | [] => [[c]]
      | h :: t => (c :: h) :: t

/-- Rust `Path::file_name().and_then(|f| f.to_str()).unwrap_or("")`: the last
normal component of the path; empty when the path is empty, is a root, or ends
in a parent-directory component.  Empty and current-directory components are
discarded, matching `std::path::Components` normalization. -/
def fileName (path : String) : List Char :=
  let comps := (splitSlash path.data).filter (fun s => !s.isEmpty && s != ['.'])
  match comps.getLast? with
  | none => []
  | some last => if last == ['.', '.'] then [] else last

/-! ## Filter engine (`filter.rs`) -/

/-- `FilterKind`: why a path is filtered (diagnostics only). -/
inductive FilterKind where
  | BuildArtifact
  | TemporaryFile
  | LockFile
  | IDE
  | OSFile
  | GitInternal
  | LogFile
  | TestArtifact
  | Hidden
  | Custom
deriving DecidableEq, Repr

/-- `MatchType`: how a rule's pattern is matched against a path. -/
inductive MatchType where
  | Contains
  | Extension
  | StartsWith
  | EndsWith
  | Regex
deriving DecidableEq, Repr

/-- `FilterRule`: one ignore predicate. -/
structure FilterRule where
  kind : FilterKind
  pattern : String
  match_type : MatchType
  exceptions : List String
deriving DecidableEq, Repr

/-- `FilterRule::contains`. -/
def FilterRule.contains (pattern : String) (kind : FilterKind) : FilterRule :=
  { kind := kind, pattern := pattern, match_type := MatchType.Contains, exceptions := [] }

/-- `FilterRule::extension`: normalizes the pattern to carry a leading dot. -/
def FilterRule.extension (ext : String) (kind : FilterKind) : FilterRule :=
  { kind := kind
    pattern := if strStartsWith ext "." then ext else "." ++ ext
    match_type := MatchType.Extension
    exceptions := [] }

/-- `FilterRule::starts_with`. -/
def FilterRule.starts_with (pattern : String) (kind : FilterKind) : FilterRule :=
  { kind := kind, pattern := pattern, match_type := MatchType.StartsWith, exceptions := [] }

/-- `FilterRule::ends_with`. -/
def FilterRule.ends_with (pattern : String) (kind : FilterKind) : FilterRule :=
  { kind := kind, pattern := pattern, match_type := MatchType.EndsWith, exceptions := [] }

/-- `FilterRule::exceptions` (builder method; renamed to avoid clashing with
the field of the same name). -/
def FilterRule.withExceptions (r : FilterRule) (exceptions : List String) : FilterRule :=
  { r with exceptions := exceptions }

/-- `FilterRule::matches`: exceptions are checked first; a path containing any
exception substring makes the rule inert for that path. -/
def FilterRule.matches (r : FilterRule) (path : String) : Bool :=
  if r.exceptions.any (fun e => strContainsSub path e) then false
  else
    match r.match_type with
    | MatchType.Contains => strContainsSub path r.pattern
    | MatchType.Extension => strEndsWith path r.pattern
    | MatchType.StartsWith => beginsWith (fileName path) r.pattern.data
    | MatchType.EndsWith => strEndsWith path r.pattern
    | MatchType.Regex => false

/-- `EventFilter`: the ordered rule set. -/
structure EventFilter where
  rules : List FilterRule
  log_filtered : Bool
deriving DecidableEq, Repr

/-- `EventFilter::default_rules` (reproduced verbatim from the source). -/
def EventFilter.default_rules : List FilterRule :=
  [ FilterRule.contains "node_modules" FilterKind.BuildArtifact,
    FilterRule.contains "/target/" FilterKind.BuildArtifact,
    FilterRule.contains "/dist/" FilterKind.BuildArtifact,
    FilterRule.contains "/build/" FilterKind.BuildArtifact,
    FilterRule.contains "/.next/" FilterKind.BuildArtifact,
    FilterRule.contains "/out/" FilterKind.BuildArtifact,
    FilterRule.extension "tmp" FilterKind.TemporaryFile,
    FilterRule.extension "temp" FilterKind.TemporaryFile,
    FilterRule.extension "swp" FilterKind.TemporaryFile,
    FilterRule.extension "swo" FilterKind.TemporaryFile,
    FilterRule.starts_with "~" FilterKind.TemporaryFile,
    (FilterRule.starts_with "." FilterKind.Hidden).withExceptions
      [".claude", ".git", ".env", ".gitignore", ".github"],
    FilterRule.ends_with "package-lock.json" FilterKind.LockFile,
    FilterRule.ends_with "yarn.lock" FilterKind.LockFile,
    FilterRule.ends_with "pnpm-lock.yaml" FilterKind.LockFile,
    FilterRule.ends_with "Cargo.lock" FilterKind.LockFile,
    FilterRule.contains "/.idea/" FilterKind.IDE,
    FilterRule.contains "/.vscode/" FilterKind.IDE,
    FilterRule.contains "/.vs/" FilterKind.IDE,
    FilterRule.extension "iml" FilterKind.IDE,
    FilterRule.ends_with ".DS_Store" FilterKind.OSFile,
    FilterRule.ends_with "Thumbs.db" FilterKind.OSFile,
    FilterRule.ends_with "desktop.ini" FilterKind.OSFile,
    FilterRule.contains "/.git/objects/" FilterKind.GitInternal,
    FilterRule.contains "/.git/logs/" FilterKind.GitInternal,
    FilterRule.extension "log" FilterKind.LogFile,
    FilterRule.contains "/test-results/" FilterKind.TestArtifact,
    FilterRule.contains "/playwright-report/" FilterKind.TestArtifact,
    FilterRule.contains "/coverage/" FilterKind.TestArtifact ]

/-- `EventFilter::new`: default rules, logging off. -/
def EventFilter.new : EventFilter :=
  { rules := EventFilter.default_rules, log_filtered := false }

/-- `EventFilter::with_rules`. -/
def EventFilter.with_rules (rules : List FilterRule) : EventFilter :=
  { rules := rules, log_filtered := false }

/-- `EventFilter::should_watch`: return `false` on the first rule that
matches, `true` when no rule matches. -/
def EventFilter.should_watch (f : EventFilter) (path : String) : Bool :=
  f.rules.all (fun r => !(r.matches path))

/-! ## Event model (`events.rs`) -/

/-- Opaque structured payload standing in for `serde_json::Value`; no claim
inspects metadata. -/
inductive JsonValue where
  | null
  | jbool (b : Bool)
  | jnum (n : Int)
  | jstr (s : String)
  | jarr (items : List JsonValue)
  | jobj (fields : List (String × JsonValue))

/-- `WatchEventKind`: flat tag of a filesystem change. -/
inductive WatchEventKind where
  | Created
  | Modified
  | Deleted
  | Renamed
  | ClaudeStateChanged
  | SourceChanged
  | ConfigChanged
  | GitCommit
  | MetadataChanged
  | Other
deriving DecidableEq, Repr

/-- `WatchEventKind::classify_by_path`: reclassify a raw kind from the path
text, first match wins. -/
def WatchEventKind.classify_by_path (base_kind : WatchEventKind) (path : String) :
    WatchEventKind :=
  if strContainsSub path "/.claude/" then WatchEventKind.ClaudeStateChanged
  else if strContainsSub path "/.git/refs/heads/" || strContainsSub path "/.git/HEAD" then
    WatchEventKind.GitCommit
  else if strEndsWith path ".toml" || strEndsWith path ".json" || strEndsWith path ".yaml"
      || strEndsWith path ".yml" || strEndsWith path ".env" then
    WatchEventKind.ConfigChanged
  else if strEndsWith path ".rs" || strEndsWith path ".ts" || strEndsWith path ".tsx"
      || strEndsWith path ".js" || strEndsWith path ".jsx" then
    WatchEventKind.SourceChanged
  else base_kind

/-- `WatchEvent`: one classified, filtered filesystem change.  The
construction timestamp is passed explicitly (the source reads the system
clock). -/
structure WatchEvent where
  kind : WatchEventKind
  paths : List String
  timestamp : Nat
  source : String
  metadata : Option JsonValue

/-- `WatchEvent::is_high_priority`. -/
def WatchEvent.is_high_priority (e : WatchEvent) : Bool :=
  match e.kind with
  | WatchEventKind.ClaudeStateChanged => true
  | WatchEventKind.GitCommit => true
  | _ => false

/-- `WatchEventBatch`: a delivery unit. -/
structure WatchEventBatch where
  events : List WatchEvent
  batch_timestamp : Nat
  total_events : Nat

/-- `WatchEventBatch::new` (timestamp passed explicitly). -/
def WatchEventBatch.new (events : List WatchEvent) (now : Nat) : WatchEventBatch :=
  { events := events, batch_timestamp := now, total_events := events.length }

/-- `WatchEventBatch::is_empty`. -/
def WatchEventBatch.is_empty (b : WatchEventBatch) : Bool :=
  b.events.isEmpty

/-- `WatchEventBatch::split_by_priority`: `Iterator::partition` keeps the
relative order of elements in both outputs. -/
def WatchEventBatch.split_by_priority (b : WatchEventBatch) :
    List WatchEvent × List WatchEvent :=
  b.events.partition (fun e => e.is_high_priority)

/-! ## Configuration (`config.rs`) -/

/-- `WatchTarget`: one path root to observe. -/
structure WatchTarget where
  path : String
  description : String
  recursive : Bool
  priority : Nat

/-- `WatchTarget::resolve_path`: pure `PathBuf::join` against the project
root (an absolute target path replaces the root). -/
def WatchTarget.resolve_path (t : WatchTarget) (project_root : String) : String :=
  if strStartsWith t.path "/" then t.path
  else if strEndsWith project_root "/" then project_root ++ t.path
  else project_root ++ "/" ++ t.path

/-- `WatchConfig`: the complete watch policy. -/
structure WatchConfig where
  targets : List WatchTarget
  debounce_ms : Nat
  recursive : Bool
  event_buffer_size : Nat
  verbose : Bool

/-- `WatchConfig::validate`: empty targets, a zero debounce, and a debounce
above 10000 ms are rejected, in that order. -/
def WatchConfig.validate (c : WatchConfig) : Except String Unit :=
  if c.targets.isEmpty then
    Except.error "At least one watch target must be specified"
  else if c.debounce_ms = 0 then
    Except.error "Debounce delay must be greater than 0"
  else if c.debounce_ms > 10000 then
    Except.error "Debounce delay should not exceed 10 seconds"
  else Except.ok ()

/-! ## Watcher service (`service.rs`) -/

/-- Sequential model of the five `AtomicU64` counters of `WatcherStats`. -/
structure WatcherStats where
  raw_events : Nat
  processed_events : Nat
  filtered_events : Nat
  events_emitted : Nat
  errors : Nat
deriving DecidableEq, Repr

/-- `WatcherStatsSnapshot`: point-in-time copy of the counters. -/
structure WatcherStatsSnapshot where
  raw_events : Nat
  processed_events : Nat
  filtered_events : Nat
  events_emitted : Nat
  errors : Nat
deriving DecidableEq, Repr

/-- `WatcherStats::snapshot`. -/
def WatcherStats.snapshot (s : WatcherStats) : WatcherStatsSnapshot :=
  { raw_events := s.raw_events
    processed_events := s.processed_events
    filtered_events := s.filtered_events
    events_emitted := s.events_emitted
    errors := s.errors }

/-- `WatcherStatsSnapshot::filter_efficiency`; the `f64` arithmetic is
modelled by exact rationals. -/
def WatcherStatsSnapshot.filter_efficiency (s : WatcherStatsSnapshot) : ℚ :=
  if s.raw_events = 0 then 0
  else ((s.filtered_events : ℚ) / (s.raw_events : ℚ)) * 100

/-- `WatcherStatsSnapshot::throughput`; the `f64` arithmetic is modelled by
exact rationals. -/
def WatcherStatsSnapshot.throughput (s : WatcherStatsSnapshot) : ℚ :=
  if s.processed_events = 0 then 0
  else ((s.events_emitted : ℚ) / (s.processed_events : ℚ)) * 100

/-- `WatcherService::determine_source`: coarse origin tag from the path
(the `project_root` parameter is unused in the source as well). -/
def determine_source (path : String) (project_root : String) : String :=
  if strContainsSub path "/.claude/" then "claude"
  else if strContainsSub path "/.git/" then "git"
  else if strContainsSub path "/src/" then "source"
  else if strContainsSub path "/tests/" then "tests"
  else "project"

/-- Raw event kind delivered by the `notify` crate (payload details elided:
the source matches only the outer constructor). -/
inductive NotifyEventKind where
  | Any
  | Access
  | Create
  | Modify
  | Remove
  | OtherK
deriving DecidableEq, Repr

/-- One debounced change descriptor handed to the debounce callback. -/
structure DebouncedEvent where
  kind : NotifyEventKind
  paths : List String

/-- The raw-kind mapping inside the debounce callback: `Access` is skipped
(`none`), `Other` and any remaining constructor map to `Other`. -/
def baseKindOf : NotifyEventKind → Option WatchEventKind
  | NotifyEventKind.Create => some WatchEventKind.Created
  | NotifyEventKind.Modify => some WatchEventKind.Modified
  | NotifyEventKind.Remove => some WatchEventKind.Deleted
  | NotifyEventKind.Access => none
  | NotifyEventKind.OtherK => some WatchEventKind.Other
  | NotifyEventKind.Any => some WatchEventKind.Other

/-- The body of the debounce callback's per-change loop: bump
`processed_events`, filter the paths, drop all-filtered changes (bumping
`filtered_events`), skip `Access` changes, otherwise classify by the first
surviving path and append a `WatchEvent` carrying all surviving paths. -/
def processChange (filter : EventFilter) (project_root : String) (now : Nat)
    (acc : WatcherStats × List WatchEvent) (ev : DebouncedEvent) :
    WatcherStats × List WatchEvent :=
  let stats := acc.1
  let ws := acc.2
  let stats := { stats with processed_events := stats.processed_events + 1 }
  match ev.paths.filter (fun p => filter.should_watch p) with
  | [] => ({ stats with filtered_events := stats.filtered_events + 1 }, ws)
  | first_path :: rest =>
    match baseKindOf ev.kind with
    | none => (stats, ws)
    | some base_kind =>
      let kind := WatchEventKind.classify_by_path base_kind first_path
      let source := determine_source first_path project_root
      (stats,
        ws ++ [{ kind := kind, paths := first_path :: rest, timestamp := now,
                 source := source, metadata := none }])

/-- The debounce callback: bump `raw_events` once per invocation, then on
success fold the per-change loop and send the batch when non-empty; on error
bump `errors` once per reported raw error. -/
def debounceCallback (filter : EventFilter) (project_root : String) (now : Nat)
    (stats : WatcherStats) (result : Except (List String) (List DebouncedEvent)) :
    WatcherStats × Option WatchEventBatch :=
  let stats := { stats with raw_events := stats.raw_events + 1 }
  match result with
  | Except.ok events =>
    let out := events.foldl (processChange filter project_root now) (stats, [])
    if out.2.isEmpty then (out.1, none)
    else (out.1, some (WatchEventBatch.new out.2 now))
  | Except.error errors =>
    (errors.foldl (fun s _ => { s with errors := s.errors + 1 }) stats, none)

/-- The dispatch task's inner emission loop: attempt to emit each event in
order; a failed emit is only logged (counted here) and `events_emitted` is
bumped after every attempt. -/
def emitEvents (emitOk : WatchEvent → Bool) (acc : WatcherStats × Nat)
    (evs : List WatchEvent) : WatcherStats × Nat :=
  evs.foldl
    (fun acc e =>
      let failures := if emitOk e then acc.2 else acc.2 + 1
      ({ acc.1 with events_emitted := acc.1.events_emitted + 1 }, failures))
    acc

/-- The dispatch task's handling of one received batch: skip empty batches,
split by priority, emit high-priority events first, then (when any) the
normal-priority events.  Returns the updated counters and the number of
delivery failures that were logged. -/
def dispatchBatch (emitOk : WatchEvent → Bool) (stats : WatcherStats)
    (batch : WatchEventBatch) : WatcherStats × Nat :=
  if batch.is_empty then (stats, 0)
  else
    let split := batch.split_by_priority
    let acc := emitEvents emitOk (stats, 0) split.1
    if split.2.isEmpty then acc
    else emitEvents emitOk acc split.2

/-! ### `WatcherService::start` as a state transition -/

/-- The parts of `WatcherService` state that `start`/`stop` mutate, plus a
count of live background dispatch tasks. -/
structure ServiceState where
  running : Bool
  eventTxSet : Bool
  hasDebouncer : Bool
  dispatchTasks : Nat
deriving DecidableEq, Repr

/-- A fully stopped service: not running, no stored channel sender, no
debouncer (hence zero OS watch handles), no live background task. -/
def ServiceState.stopped : ServiceState :=
  { running := false, eventTxSet := false, hasDebouncer := false, dispatchTasks := 0 }

/-- Errors `start` can return. -/
inductive StartError where
  | alreadyRunning
  | invalidConfig (msg : String)
  | debouncerFailed
  | watchFailed (msg : String)
deriving DecidableEq, Repr

/-- The target registration loop of `start`: a missing path is skipped, a
failing `watch` call on an existing path aborts with an error.  `existsF`
and `watchF` are oracles for `Path::exists` and watch registration, keyed on
the resolved path. -/
def registerTargets (existsF watchF : String → Bool) (project_root : String) :
    List WatchTarget → Except String Unit
  | [] => Except.ok ()
  | t :: rest =>
    let path := t.resolve_path project_root
    if !(existsF path) then registerTargets existsF watchF project_root rest
    else if !(watchF path) then Except.error ("Failed to watch path: " ++ path)
    else registerTargets existsF watchF project_root rest

/-- `WatcherService::start` as a transition on `ServiceState`: reject when
running; validate; store a channel sender and spawn the dispatch task;
create the debouncer (`debouncerOk` oracle); register targets; only then
store the debouncer and set `running`.  Early error returns keep every
mutation already made to `self`. -/
def serviceStart (s : ServiceState) (config : WatchConfig) (project_root : String)
    (debouncerOk : Bool) (existsF watchF : String → Bool) :
    Except StartError Unit × ServiceState :=
  if s.running then (Except.error StartError.alreadyRunning, s)
  else
    match config.validate with
    | Except.error e => (Except.error (StartError.invalidConfig e), s)
    | Except.ok _ =>
      let s1 := { s with eventTxSet := true, dispatchTasks := s.dispatchTasks + 1 }
      if !debouncerOk then (Except.error StartError.debouncerFailed, s1)
      else
        match registerTargets existsF watchF project_root config.targets with
        | Except.error e => (Except.error (StartError.watchFailed e), s1)
        | Except.ok _ =>
          (Except.ok (), { s1 with hasDebouncer := true, running := true })

/-- Rust `Result::is_ok` on validation results. -/
def isOkE : Except String Unit → Bool
  | Except.ok _ => true
  | Except.error _ => false

/-! ## Shared helper lemmas -/

theorem beginsWith_nil (l : List Char) : beginsWith l [] = true := by
  cases l <;> rfl

theorem length_filter_split {α : Type} (p : α → Bool) (l : List α) :
    (l.filter p).length + (l.filter (fun a => !p a)).length = l.length := by
  induction l with
  | nil => simp
  | cons a t ih =>
    by_cases h : p a = true <;> simp [List.filter_cons, h] <;> omega

theorem length_filter_filter_split {α : Type} (p q : α → Bool) (l : List α) :
    ((l.filter p).filter q).length + ((l.filter (fun a => !p a)).filter q).length =
      (l.filter q).length := by
  induction l with
  | nil => simp
  | cons a t ih =>
    by_cases hp : p a = true <;> by_cases hq : q a = true <;>
      simp [List.filter_cons, hp, hq, -List.filter_filter] <;> omega

/-! ## Claim theorems -/

/-- C6: `split_by_priority` is an exhaustive stable partition: the output
lengths sum to the input length, the high (resp. normal) output is exactly
the subsequence of high-priority (resp. non-high-priority) events, and both
outputs preserve the original relative order (they are sublists of the
batch). -/
theorem split_by_priority_stable_partition (b : WatchEventBatch) :
    (b.split_by_priority.1.length + b.split_by_priority.2.length = b.events.length) ∧
    b.split_by_priority.1 = b.events.filter (fun e => e.is_high_priority) ∧
    b.split_by_priority.2 = b.events.filter (fun e => !e.is_high_priority) ∧
    b.split_by_priority.1.Sublist b.events ∧
    b.split_by_priority.2.Sublist b.events ∧
    b.split_by_priority.1.all (fun e => e.is_high_priority) = true ∧
    b.split_by_priority.2.all (fun e => !e.is_high_priority) = true := by
  have h1 : b.split_by_priority.1 = b.events.filter (fun e => e.is_high_priority) := by
    simp [WatchEventBatch.split_by_priority, List.partition_eq_filter_filter]
  have h2 : b.split_by_priority.2 = b.events.filter (fun e => !e.is_high_priority) := by
    show (b.events.partition fun e => e.is_high_priority).2 = _
    rw [List.partition_eq_filter_filter]
    rfl
  refine ⟨?_, h1, h2, ?_, ?_, ?_, ?_⟩
  · rw [h1, h2]; exact length_filter_split _ _
  · rw [h1]; exact List.filter_sublist _
  · rw [h2]; exact List.filter_sublist _
  · rw [h1]; simp only [List.all_eq_true]
    intro e he; exact (List.mem_filter.mp he).2
  · rw [h2]; simp only [List.all_eq_true]
    intro e he; exact (List.mem_filter.mp he).2

/-- C7: `WatchConfig::validate` succeeds exactly when the targets list is
non-empty and the debounce is in `1..=10000`; it errors on an empty target
list and on debounce values of `0` or above `10000`. -/
theorem validate_ok_iff (c : WatchConfig) :
    isOkE c.validate =
      (!c.targets.isEmpty && decide (1 ≤ c.debounce_ms) &&
        decide (c.debounce_ms ≤ 10000)) := by
  unfold WatchConfig.validate
  split_ifs with h1 h2 h3 <;> simp_all [isOkE] <;> omega

/-- C8: `filter_efficiency` equals `filtered_events / raw_events * 100` (and
is `0` when `raw_events = 0`), `throughput` equals
`events_emitted / processed_events * 100` (and is `0` when
`processed_events = 0`); in particular raw 100 / filtered 60 gives `60` and
processed 400 / emitted 350 gives `87.5`. -/
theorem stats_derived_metrics :
    (∀ s : WatcherStatsSnapshot,
        s.filter_efficiency = (s.filtered_events : ℚ) / (s.raw_events : ℚ) * 100 ∧
        s.throughput = (s.events_emitted : ℚ) / (s.processed_events : ℚ) * 100 ∧
        (s.raw_events = 0 → s.filter_efficiency = 0) ∧
        (s.processed_events = 0 → s.throughput = 0)) ∧
    WatcherStatsSnapshot.filter_efficiency
      { raw_events := 100, processed_events := 0, filtered_events := 60,
        events_emitted := 0, errors := 0 } = 60 ∧
    WatcherStatsSnapshot.throughput
      { raw_events := 0, processed_events := 400, filtered_events := 0,
        events_emitted := 350, errors := 0 } = 87.5 := by
  refine ⟨fun s => ⟨?_, ?_, ?_, ?_⟩, ?_, ?_⟩
  · by_cases h : s.raw_events = 0 <;>
      simp [WatcherStatsSnapshot.filter_efficiency, h]
  · by_cases h : s.processed_events = 0 <;>
      simp [WatcherStatsSnapshot.throughput, h]
  · intro h; simp [WatcherStatsSnapshot.filter_efficiency, h]
  · intro h; simp [WatcherStatsSnapshot.throughput, h]
  · norm_num [WatcherStatsSnapshot.filter_efficiency]
  · norm_num [WatcherStatsSnapshot.throughput]

/-- C8 witness: the zero-guard clauses of `stats_derived_metrics` applied at
a concrete snapshot. -/
theorem stats_derived_metrics_witness :
    WatcherStatsSnapshot.filter_efficiency
      { raw_events := 0, processed_events := 7, filtered_events := 5,
        events_emitted := 3, errors := 0 } = 0 ∧
    WatcherStatsSnapshot.throughput
      { raw_events := 9, processed_events := 0, filtered_events := 5,
        events_emitted := 3, errors := 0 } = 0 :=
  ⟨((stats_derived_metrics.1 _).2.2.1) rfl, ((stats_derived_metrics.1 _).2.2.2) rfl⟩

/-- C9: the source tag depends only on the path, never on the project root,
and is always one of the five fixed tags. -/
theorem determine_source_root_independent (p r1 r2 : String) :
    determine_source p r1 = determine_source p r2 ∧
    determine_source p r1 ∈ (["claude", "git", "source", "tests", "project"] : List String) := by
  constructor
  · rfl
  · unfold determine_source; split_ifs <;> simp

/-- C10: `FilterRule::extension` normalizes its pattern to carry exactly one
leading dot: for an extension not starting with a dot, building the rule
from `e` and from `"." ++ e` yields the same rule, hence the same match
behaviour on every path. -/
theorem extension_normalizes (e : String) (k : FilterKind)
    (h : strStartsWith e "." = false) :
    FilterRule.extension e k = FilterRule.extension ("." ++ e) k ∧
    ∀ p : String,
      (FilterRule.extension e k).matches p = (FilterRule.extension ("." ++ e) k).matches p := by
  have hs : strStartsWith ("." ++ e) "." = true := by
    unfold strStartsWith
    rw [String.data_append]
    show beginsWith ('.' :: e.data) ['.'] = true
    rw [beginsWith]
    simp [beginsWith_nil]
  have hrule : FilterRule.extension e k = FilterRule.extension ("." ++ e) k := by
    simp [FilterRule.extension, h, hs]
  exact ⟨hrule, fun p => by rw [hrule]⟩

/-- C10 witness: normalization at the concrete extension `"tmp"`. -/
theorem extension_normalizes_witness :
    FilterRule.extension "tmp" FilterKind.TemporaryFile =
      FilterRule.extension ("." ++ "tmp") FilterKind.TemporaryFile :=
  (extension_normalizes "tmp" FilterKind.TemporaryFile (by decide)).1

theorem emitEvents_spec (emitOk : WatchEvent → Bool) :
    ∀ (evs : List WatchEvent) (acc : WatcherStats × Nat),
      (emitEvents emitOk acc evs).1.events_emitted = acc.1.events_emitted + evs.length ∧
      (emitEvents emitOk acc evs).1.raw_events = acc.1.raw_events ∧
      (emitEvents emitOk acc evs).1.processed_events = acc.1.processed_events ∧
      (emitEvents emitOk acc evs).1.filtered_events = acc.1.filtered_events ∧
      (emitEvents emitOk acc evs).1.errors = acc.1.errors ∧
      (emitEvents emitOk acc evs).2 = acc.2 + (evs.filter (fun e => !emitOk e)).length := by
  intro evs
  induction evs with
  | nil => intro acc; simp [emitEvents]
  | cons e t ih =>
    intro acc
    have hstep : emitEvents emitOk acc (e :: t) =
        emitEvents emitOk
          ({ acc.1 with events_emitted := acc.1.events_emitted + 1 },
            if emitOk e then acc.2 else acc.2 + 1) t := rfl
    rw [hstep]
    obtain ⟨i1, i2, i3, i4, i5, i6⟩ :=
      ih ({ acc.1 with events_emitted := acc.1.events_emitted + 1 },
        if emitOk e then acc.2 else acc.2 + 1)
    refine ⟨?_, i2, i3, i4, i5, ?_⟩
    · rw [i1]; simp; omega
    · rw [i6]
      by_cases h : emitOk e = true <;> simp [List.filter_cons, h] <;> omega

/-- C1 counterexample: a batch holding one `Modified` event dispatched to a
consumer whose emit always fails — zero events are successfully emitted,
yet `events_emitted` still rises by 1 (and the one failure is logged). -/
def exEventC1 : WatchEvent :=
  { kind := WatchEventKind.Modified, paths := ["/project/src/main.rs"],
    timestamp := 0, source := "source", metadata := none }

/-- The one-event batch used by the C1 counterexample. -/
def exBatchC1 : WatchEventBatch := WatchEventBatch.new [exEventC1] 0

/-- C1 counterexample theorem: with an always-failing consumer boundary,
`dispatchBatch` increments `events_emitted` for the failed event — the
counter reads 1 although the number of successfully emitted events is 0,
contradicting "events_emitted is not incremented for the failed event". -/
theorem dispatch_counts_failed_emit :
    (dispatchBatch (fun _ => false) ⟨0, 0, 0, 0, 0⟩ exBatchC1).1.events_emitted = 1 ∧
    (exBatchC1.events.filter (fun _ => false)).length = 0 ∧
    (dispatchBatch (fun _ => false) ⟨0, 0, 0, 0, 0⟩ exBatchC1).2 = 1 :=
  ⟨rfl, rfl, rfl⟩

/-- C1 (amended): for every batch the dispatch task processes,
`events_emitted` rises by the total number of events in the batch — once per
delivery attempt whether or not the emit succeeded; each delivery failure is
logged (counted here) and the loop continues with the remaining events, and
no other counter changes. -/
theorem dispatch_increments_per_attempt (emitOk : WatchEvent → Bool)
    (stats : WatcherStats) (batch : WatchEventBatch) :
    (dispatchBatch emitOk stats batch).1.events_emitted
        = stats.events_emitted + batch.events.length ∧
    (dispatchBatch emitOk stats batch).2
        = (batch.events.filter (fun e => !emitOk e)).length ∧
    (dispatchBatch emitOk stats batch).1.raw_events = stats.raw_events ∧
    (dispatchBatch emitOk stats batch).1.processed_events = stats.processed_events ∧
    (dispatchBatch emitOk stats batch).1.filtered_events = stats.filtered_events ∧
    (dispatchBatch emitOk stats batch).1.errors = stats.errors := by
  unfold dispatchBatch
  by_cases hempty : batch.is_empty = true
  · have hnil : batch.events = [] := by
      simpa [WatchEventBatch.is_empty, List.isEmpty_iff] using hempty
    simp [hempty, hnil]
  · have hsplit1 : batch.split_by_priority.1
        = batch.events.filter (fun e => e.is_high_priority) := by
      show (batch.events.partition fun e => e.is_high_priority).1 = _
      rw [List.partition_eq_filter_filter]
    have hsplit2 : batch.split_by_priority.2
        = batch.events.filter (fun e => !e.is_high_priority) := by
      show (batch.events.partition fun e => e.is_high_priority).2 = _
      rw [List.partition_eq_filter_filter]
      rfl
    have hlen := length_filter_split (fun e => e.is_high_priority) batch.events
    have hfail := length_filter_filter_split (fun e => e.is_high_priority)
      (fun e => !emitOk e) batch.events
    rw [if_neg hempty]
    dsimp only
    rw [hsplit1, hsplit2]
    obtain ⟨a1, a2, a3, a4, a5, a6⟩ :=
      emitEvents_spec emitOk (batch.events.filter (fun e => e.is_high_priority)) (stats, 0)
    dsimp only at a1 a2 a3 a4 a5 a6
    by_cases hn :
        (batch.events.filter (fun e => !e.is_high_priority)).isEmpty = true
    · have hnil2 : batch.events.filter (fun e => !e.is_high_priority) = [] := by
        simpa [List.isEmpty_iff] using hn
      have hlenN : (batch.events.filter (fun e => !e.is_high_priority)).length = 0 := by
        rw [hnil2]; rfl
      have hfailN : ((batch.events.filter (fun e => !e.is_high_priority)).filter
          (fun e => !emitOk e)).length = 0 := by
        rw [hnil2]; rfl
      rw [if_pos hn]
      refine ⟨?_, ?_, ?_, ?_, ?_, ?_⟩ <;> omega
    · obtain ⟨b1, b2, b3, b4, b5, b6⟩ :=
        emitEvents_spec emitOk (batch.events.filter (fun e => !e.is_high_priority))
          (emitEvents emitOk (stats, 0) (batch.events.filter (fun e => e.is_high_priority)))
      rw [if_neg hn]
      refine ⟨?_, ?_, ?_, ?_, ?_, ?_⟩ <;> omega

/-- Classification precedence exactly as the amended claim words it: an
ordered clause list, first match wins — `/.claude/` containment; then
git-commit paths (`/.git/refs/heads/` containment, or `/.git/HEAD`
containment); then a config extension; then a source-file extension; else
the base kind unchanged. -/
def classifyClaim (base_kind : WatchEventKind) (path : String) : WatchEventKind :=
  if strContainsSub path "/.claude/" then WatchEventKind.ClaudeStateChanged
  else if strContainsSub path "/.git/refs/heads/" then WatchEventKind.GitCommit
  else if strContainsSub path "/.git/HEAD" then WatchEventKind.GitCommit
  else if [".toml", ".json", ".yaml", ".yml", ".env"].any
      (fun e => strEndsWith path e) then WatchEventKind.ConfigChanged
  else if [".rs", ".ts", ".tsx", ".js", ".jsx"].any
      (fun e => strEndsWith path e) then WatchEventKind.SourceChanged
  else base_kind

/-- C2 counterexample: the code tests `/.git/HEAD` by substring containment,
not as a suffix.  `"/p/.git/HEADS"` satisfies no clause of the claim as
stated — it does not contain `/.git/refs/heads/`, does not end with
`/.git/HEAD`, and carries no config or source extension — so the claim
predicts the base kind `Modified`, yet `classify_by_path` returns
`GitCommit`. -/
theorem classify_head_containment_counterexample :
    WatchEventKind.classify_by_path WatchEventKind.Modified "/p/.git/HEADS"
        = WatchEventKind.GitCommit ∧
    strEndsWith "/p/.git/HEADS" "/.git/HEAD" = false ∧
    strContainsSub "/p/.git/HEADS" "/.git/refs/heads/" = false ∧
    strContainsSub "/p/.git/HEADS" "/.claude/" = false ∧
    ([".toml", ".json", ".yaml", ".yml", ".env"].any
      (fun e => strEndsWith "/p/.git/HEADS" e)) = false ∧
    ([".rs", ".ts", ".tsx", ".js", ".jsx"].any
      (fun e => strEndsWith "/p/.git/HEADS" e)) = false ∧
    WatchEventKind.GitCommit ≠ WatchEventKind.Modified := by
  decide

/-- C2 (amended): with the second clause amended from "ends with
`/.git/HEAD`" to "contains `/.git/HEAD`", the claim's precedence list
describes `classify_by_path` exactly, for every base kind and path. -/
theorem classify_by_path_precedence (k : WatchEventKind) (p : String) :
    WatchEventKind.classify_by_path k p = classifyClaim k p := by
  unfold WatchEventKind.classify_by_path classifyClaim
  simp only [List.any_cons, List.any_nil, Bool.or_false]
  by_cases h1 : strContainsSub p "/.claude/" = true <;> simp [h1]
  by_cases h2 : strContainsSub p "/.git/refs/heads/" = true <;> simp [h2]
  by_cases h3 : strContainsSub p "/.git/HEAD" = true <;> simp [h3, Bool.or_assoc]
  all_goals (by_cases c1 : strEndsWith p ".toml" = true <;> simp [c1])
  all_goals (by_cases c2 : strEndsWith p ".json" = true <;> simp [c2])
  all_goals (by_cases c3 : strEndsWith p ".yaml" = true <;> simp [c3])
  all_goals (by_cases c4 : strEndsWith p ".yml" = true <;> simp [c4])
  all_goals (by_cases c5 : strEndsWith p ".env" = true <;> simp [c5])
  all_goals (by_cases s1 : strEndsWith p ".rs" = true <;> simp [s1])
  all_goals (by_cases s2 : strEndsWith p ".ts" = true <;> simp [s2])
  all_goals (by_cases s3 : strEndsWith p ".tsx" = true <;> simp [s3])
  all_goals (by_cases s4 : strEndsWith p ".js" = true <;> simp [s4])
  all_goals (by_cases s5 : strEndsWith p ".jsx" = true <;> simp [s5])

theorem processChange_step (f : EventFilter) (root : String) (now : Nat)
    (s : WatcherStats) (ws : List WatchEvent) (ev : DebouncedEvent) :
    (processChange f root now (s, ws) ev).1.raw_events = s.raw_events ∧
    (processChange f root now (s, ws) ev).1.processed_events = s.processed_events + 1 ∧
    (processChange f root now (s, ws) ev).1.filtered_events = s.filtered_events +
      (if (ev.paths.filter (fun p => f.should_watch p)).isEmpty then 1 else 0) ∧
    (processChange f root now (s, ws) ev).1.events_emitted = s.events_emitted ∧
    (processChange f root now (s, ws) ev).1.errors = s.errors ∧
    ∃ tail : List WatchEvent,
      (processChange f root now (s, ws) ev).2 = ws ++ tail ∧
      ∀ e ∈ tail, e.paths ≠ [] := by
  unfold processChange
  cases hp : ev.paths.filter (fun p => f.should_watch p) with
  | nil =>
    refine ⟨?_, ?_, ?_, ?_, ?_, [], ?_, ?_⟩ <;> simp [hp]
  | cons a t =>
    cases hk : baseKindOf ev.kind with
    | none =>
      refine ⟨?_, ?_, ?_, ?_, ?_, [], ?_, ?_⟩ <;> simp [hp, hk]
    | some base =>
      refine ⟨?_, ?_, ?_, ?_, ?_,
        [{ kind := WatchEventKind.classify_by_path base a, paths := a :: t,
           timestamp := now, source := determine_source a root, metadata := none }],
        ?_, ?_⟩ <;> simp [hp, hk]

theorem processChange_fold (f : EventFilter) (root : String) (now : Nat) :
    ∀ (evs : List DebouncedEvent) (s : WatcherStats) (ws : List WatchEvent),
      (evs.foldl (processChange f root now) (s, ws)).1.raw_events = s.raw_events ∧
      (evs.foldl (processChange f root now) (s, ws)).1.processed_events
          = s.processed_events + evs.length ∧
      (evs.foldl (processChange f root now) (s, ws)).1.filtered_events
          = s.filtered_events + (evs.filter
              (fun ev => (ev.paths.filter (fun p => f.should_watch p)).isEmpty)).length ∧
      (evs.foldl (processChange f root now) (s, ws)).1.events_emitted = s.events_emitted ∧
      (evs.foldl (processChange f root now) (s, ws)).1.errors = s.errors ∧
      ∃ tail : List WatchEvent,
        (evs.foldl (processChange f root now) (s, ws)).2 = ws ++ tail ∧
        ∀ e ∈ tail, e.paths ≠ [] := by
  intro evs
  induction evs with
  | nil =>
    intro s ws
    refine ⟨rfl, by simp, by simp, rfl, rfl, [], by simp, by simp⟩
  | cons ev t ih =>
    intro s ws
    rw [List.foldl_cons]
    obtain ⟨r1, r2, r3, r4, r5, tail0, htail0, hne0⟩ := processChange_step f root now s ws ev
    obtain ⟨i1, i2, i3, i4, i5, tail1, htail1, hne1⟩ :=
      ih (processChange f root now (s, ws) ev).1 (processChange f root now (s, ws) ev).2
    refine ⟨?_, ?_, ?_, ?_, ?_, tail0 ++ tail1, ?_, ?_⟩
    · rw [i1, r1]
    · rw [i2, r2, List.length_cons]; omega
    · rw [i3, r3, List.filter_cons]
      by_cases hp : (ev.paths.filter (fun p => f.should_watch p)).isEmpty = true <;>
        simp [hp] <;> omega
    · rw [i4, r4]
    · rw [i5, r5]
    · rw [htail1, htail0, List.append_assoc]
    · intro e he
      rcases List.mem_append.mp he with h0 | h1
      · exact hne0 e h0
      · exact hne1 e h1

/-- C5: one successful debounce-callback invocation containing `n` changes
bumps `raw_events` by exactly 1 (once per invocation), `processed_events` by
exactly `n`, and `filtered_events` by exactly the number of contained changes
whose paths were all filtered out; those changes are dropped, and every
`WatchEvent` placed in the produced batch carries a non-empty paths list. -/
theorem debounce_callback_counters (f : EventFilter) (root : String) (now : Nat)
    (stats : WatcherStats) (events : List DebouncedEvent) :
    (debounceCallback f root now stats (Except.ok events)).1.raw_events
        = stats.raw_events + 1 ∧
    (debounceCallback f root now stats (Except.ok events)).1.processed_events
        = stats.processed_events + events.length ∧
    (debounceCallback f root now stats (Except.ok events)).1.filtered_events
        = stats.filtered_events + (events.filter
            (fun ev => (ev.paths.filter (fun p => f.should_watch p)).isEmpty)).length ∧
    (debounceCallback f root now stats (Except.ok events)).1.events_emitted
        = stats.events_emitted ∧
    (debounceCallback f root now stats (Except.ok events)).1.errors = stats.errors ∧
    (((debounceCallback f root now stats (Except.ok events)).2.map
        WatchEventBatch.events).getD []).all (fun e => !e.paths.isEmpty) = true := by
  obtain ⟨r1, r2, r3, r4, r5, tail, htail, hne⟩ :=
    processChange_fold f root now events
      { stats with raw_events := stats.raw_events + 1 } []
  have hbody : debounceCallback f root now stats (Except.ok events) =
      (let out := events.foldl (processChange f root now)
        ({ stats with raw_events := stats.raw_events + 1 }, [])
      if out.2.isEmpty then (out.1, none)
      else (out.1, some (WatchEventBatch.new out.2 now))) := rfl
  rw [hbody]
  dsimp only
  by_cases hout : (events.foldl (processChange f root now)
      ({ stats with raw_events := stats.raw_events + 1 }, [])).2.isEmpty = true
  · rw [if_pos hout]
    refine ⟨by rw [r1], by rw [r2], by rw [r3], by rw [r4], by rw [r5], by simp⟩
  · rw [if_neg hout]
    refine ⟨by rw [r1], by rw [r2], by rw [r3], by rw [r4], by rw [r5], ?_⟩
    simp only [Option.map_some, Option.getD_some, WatchEventBatch.new]
    simp only [List.all_eq_true]
    intro e he
    have hmem : e ∈ [] ++ tail := by
      rw [← htail]
      simpa using he
    simp only [List.nil_append] at hmem
    simpa [List.isEmpty_iff] using hne e hmem

/-- The one target of the C3 counterexample configuration. -/
def exTargetC3 : WatchTarget :=
  { path := "src", description := "Source code for test re-runs",
    recursive := true, priority := 8 }

/-- A valid configuration used by the C3 counterexample. -/
def exConfigC3 : WatchConfig :=
  { targets := [exTargetC3], debounce_ms := 100, recursive := true,
    event_buffer_size := 1000, verbose := false }

/-- C3 counterexample: starting from the stopped state with a valid
configuration, an existing target path, and a failing watch registration,
`start` returns an error and the service is indeed not running and holds no
watch handles — but the dispatch task spawned earlier in the same attempt
and the stored channel sender are left behind, so the "zero background
tasks" part of the claim fails. -/
theorem start_watch_failure_leaves_task :
    (serviceStart ServiceState.stopped exConfigC3 "/project" true
        (fun _ => true) (fun _ => false)).1
      = Except.error (StartError.watchFailed "Failed to watch path: /project/src") ∧
    (serviceStart ServiceState.stopped exConfigC3 "/project" true
        (fun _ => true) (fun _ => false)).2.running = false ∧
    (serviceStart ServiceState.stopped exConfigC3 "/project" true
        (fun _ => true) (fun _ => false)).2.hasDebouncer = false ∧
    (serviceStart ServiceState.stopped exConfigC3 "/project" true
        (fun _ => true) (fun _ => false)).2.dispatchTasks = 1 ∧
    (serviceStart ServiceState.stopped exConfigC3 "/project" true
        (fun _ => true) (fun _ => false)).2.eventTxSet = true :=
  ⟨rfl, rfl, rfl, rfl, rfl⟩

/-- C3 (amended): every failing `start` from the stopped state leaves the
service not running and with no stored debouncer (zero active OS watch
handles); a failure at the already-running check or at validation leaves the
state fully unchanged, but a later failure (debouncer creation or watch
registration) leaves the stored channel sender and one spawned background
dispatch task behind. -/
theorem start_error_state (config : WatchConfig) (root : String)
    (dOk : Bool) (existsF watchF : String → Bool) (e : StartError)
    (h : (serviceStart ServiceState.stopped config root dOk existsF watchF).1
        = Except.error e) :
    (serviceStart ServiceState.stopped config root dOk existsF watchF).2.running
        = false ∧
    (serviceStart ServiceState.stopped config root dOk existsF watchF).2.hasDebouncer
        = false ∧
    (isOkE config.validate = false →
      (serviceStart ServiceState.stopped config root dOk existsF watchF).2
        = ServiceState.stopped) ∧
    (isOkE config.validate = true →
      (serviceStart ServiceState.stopped config root dOk existsF watchF).2.eventTxSet
          = true ∧
      (serviceStart ServiceState.stopped config root dOk existsF watchF).2.dispatchTasks
          = 1) := by
  cases hv : config.validate with
  | error msg =>
    simp [serviceStart, ServiceState.stopped, hv, isOkE]
  | ok u =>
    cases u
    by_cases hd : dOk = true
    · cases hr : registerTargets existsF watchF root config.targets with
      | error msg =>
        simp [serviceStart, ServiceState.stopped, hv, hd, hr, isOkE]
      | ok u2 =>
        cases u2
        rw [serviceStart] at h
        simp [ServiceState.stopped, hv, hd, hr] at h
    · simp [serviceStart, ServiceState.stopped, hv, hd, isOkE]

/-- An invalid (empty-target) configuration used by the C3 witness. -/
def exConfigC3bad : WatchConfig :=
  { targets := [], debounce_ms := 100, recursive := true,
    event_buffer_size := 1000, verbose := false }

/-- C3 witness: `start_error_state` applied at a concrete invalid
configuration — the failed start leaves the stopped state unchanged. -/
theorem start_error_state_witness :
    (serviceStart ServiceState.stopped exConfigC3bad "/p" true
        (fun _ => true) (fun _ => true)).2 = ServiceState.stopped :=
  (start_error_state exConfigC3bad "/p" true (fun _ => true) (fun _ => true)
      (StartError.invalidConfig "At least one watch target must be specified")
      rfl).2.2.1 rfl

/-- The exception substrings of the default hidden-file rule. -/
def hiddenExceptions : List String :=
  [".claude", ".git", ".env", ".gitignore", ".github"]

/-- The default hidden-file rule (the only `Hidden`-kind default rule). -/
def hiddenRule : FilterRule :=
  { kind := FilterKind.Hidden, pattern := ".", match_type := MatchType.StartsWith,
    exceptions := hiddenExceptions }

/-- C4 counterexample: `"/p/.claude.tmp"` is a path whose filename starts
with `.` and which contains the exception substring `.claude`, so the claim
says `should_watch` returns `true`; but the `.tmp` extension rule still
matches the path, and `should_watch` returns `false`. -/
theorem hidden_exception_counterexample :
    beginsWith (fileName "/p/.claude.tmp") ['.'] = true ∧
    strContainsSub "/p/.claude.tmp" ".claude" = true ∧
    EventFilter.new.should_watch "/p/.claude.tmp" = false := by
  decide

theorem all_skip_kind_of_matches_false (p : String) (rules : List FilterRule)
    (h : ∀ r ∈ rules, r.kind = FilterKind.Hidden → r.matches p = false) :
    rules.all (fun r => !(r.matches p))
      = (rules.filter (fun r => decide (r.kind ≠ FilterKind.Hidden))).all
          (fun r => !(r.matches p)) := by
  induction rules with
  | nil => rfl
  | cons r t ih =>
    have ht : ∀ r' ∈ t, r'.kind = FilterKind.Hidden → r'.matches p = false :=
      fun r' hr' => h r' (List.mem_cons_of_mem r hr')
    by_cases hk : r.kind = FilterKind.Hidden
    · have hm := h r (List.mem_cons_self r t) hk
      simp [List.all_cons, List.filter_cons, hk, hm, ih ht]
    · simp [List.all_cons, List.filter_cons, hk, ih ht]

/-- C4 (amended): a dot-file path (filename starting with `.`) containing
none of the exception substrings is always filtered (`should_watch` is
`false`); a path containing an exception substring is never filtered by the
hidden-file rule — `should_watch` on it equals the verdict of the remaining
default rules, which may still filter it (as the counterexample shows). -/
theorem hidden_dotfile_filtering :
    (∀ p : String, beginsWith (fileName p) ['.'] = true →
      (hiddenExceptions.any fun e => strContainsSub p e) = false →
      EventFilter.new.should_watch p = false) ∧
    (∀ p : String, (hiddenExceptions.any fun e => strContainsSub p e) = true →
      EventFilter.new.should_watch p =
        (EventFilter.with_rules (EventFilter.default_rules.filter
          (fun r => decide (r.kind ≠ FilterKind.Hidden)))).should_watch p) := by
  constructor
  · intro p h1 h2
    have hm : hiddenRule.matches p = true := by
      unfold FilterRule.matches hiddenRule
      rw [if_neg (by simp [hiddenExceptions] at h2 ⊢; exact h2)]
      exact h1
    have hmem : hiddenRule ∈ EventFilter.new.rules := by decide
    unfold EventFilter.should_watch
    cases hall : EventFilter.new.rules.all (fun r => !(r.matches p)) with
    | false => rfl
    | true =>
      exfalso
      have hx := (List.all_eq_true.mp hall) hiddenRule hmem
      rw [hm] at hx
      simp at hx
  · intro p hexc
    have hm : hiddenRule.matches p = false := by
      unfold FilterRule.matches hiddenRule
      rw [if_pos (by simp [hiddenExceptions] at hexc ⊢; exact hexc)]
    have hhid : ∀ r ∈ EventFilter.default_rules,
        r.kind = FilterKind.Hidden → r = hiddenRule := by decide
    have h : ∀ r ∈ EventFilter.default_rules,
        r.kind = FilterKind.Hidden → r.matches p = false := by
      intro r hr hk
      rw [hhid r hr hk]
      exact hm
    unfold EventFilter.should_watch EventFilter.new EventFilter.with_rules
    exact all_skip_kind_of_matches_false p EventFilter.default_rules h

/-- C4 witness: the amended theorem applied at two concrete paths — a plain
dot-file is filtered; a `.claude` path is decided by the non-hidden rules. -/
theorem hidden_dotfile_filtering_witness :
    EventFilter.new.should_watch "/p/.secrets" = false ∧
    EventFilter.new.should_watch "/p/.claude/state.md" =
      (EventFilter.with_rules (EventFilter.default_rules.filter
        (fun r => decide (r.kind ≠ FilterKind.Hidden)))).should_watch "/p/.claude/state.md" :=
  ⟨hidden_dotfile_filtering.1 "/p/.secrets" (by decide) (by decide),
    hidden_dotfile_filtering.2 "/p/.claude/state.md" (by decide)⟩

end Watcher
